import Mathlib

/-!
Verification development for the receipt/invoice extraction pipeline of
`receipt_extractor.py`.

The Python source is shallowly embedded: strings are `List Char`, Python
floats that always carry values parsed from two-decimal money literals are
modelled as exact rationals (`ℚ`), fallible OCR acquisition is out of scope
(text is an input), and the per-document extraction call used by the batch
wrapper is a parameter of type `_ → Except _ _` so that a raised exception
is an `Except.error` value.  Character classes (`\\d`, `\\s`, `\\w`, `upper`,
`title`) are modelled at ASCII precision, matching Python's behaviour on the
ASCII receipts this program handles.

Regular expressions from the source are embedded two ways:
* a small backtracking engine (`RE`, `reRun`) with Python's leftmost /
  greedy / lazy priority semantics, used for the item-line grammar, the
  document-number patterns and the totals patterns;
* a hand-rolled deterministic matcher for the area-resolver pattern
  `\\b\\d{5}\\b\\s+([A-Z\\.\\s]+)` (`matchTailAt`), written to follow the
  backtracking order of that regex step by step, so that universally
  quantified statements about `extract_area_from_address` can be proved.
-/

/-! ### Python string primitives (ASCII model) -/

/-- Python's `\s` / `str.strip()` whitespace at ASCII precision. -/
def pySpace (c : Char) : Bool :=
  c = ' ' || c = '\t' || c = '\n' || c = '\r' || c = '\x0b' || c = '\x0c'

/-- Python's `\w` word character at ASCII precision. -/
def isWordChar (c : Char) : Bool :=
  c.isAlpha || c.isDigit || c = '_'

/-- `str.upper()` (ASCII). -/
def pyUpper (s : List Char) : List Char := s.map Char.toUpper

/-- `str.strip()`: drop leading and trailing whitespace. -/
def pyStrip (s : List Char) : List Char :=
  ((s.dropWhile pySpace).reverse.dropWhile pySpace).reverse

/-- Helper for `pyTitle`: the boolean records whether the previous
character was a letter. -/
def titleGo : Bool → List Char → List Char
  | _, [] => []
  | prevAlpha, c :: rest =>
    (if c.isAlpha then (if prevAlpha then c.toLower else c.toUpper) else c)
      :: titleGo c.isAlpha rest

/-- `str.title()` (ASCII): a letter is uppercased when the previous
character is not a letter, lowercased otherwise. -/
def pyTitle (s : List Char) : List Char := titleGo false s

/-- Helper for `pySplit`: accumulates the current token (reversed). -/
def pySplitGo : List Char → List Char → List (List Char)
  | [], acc => if acc = [] then [] else [acc.reverse]
  | c :: rest, acc =>
    if pySpace c then
      (if acc = [] then pySplitGo rest [] else acc.reverse :: pySplitGo rest [])
    else pySplitGo rest (c :: acc)

/-- `str.split()` with no argument: split on whitespace runs, dropping
empty pieces. -/
def pySplit (s : List Char) : List (List Char) := pySplitGo s []

/-- Helper for `pySplitLines`. -/
def splitLinesGo : List Char → List Char → List (List Char)
  | [], acc => if acc = [] then [] else [acc.reverse]
  | '\r' :: '\n' :: rest, acc => acc.reverse :: splitLinesGo rest []
  | c :: rest, acc =>
    if c = '\n' || c = '\r' then acc.reverse :: splitLinesGo rest []
    else splitLinesGo rest (c :: acc)

/-- `str.splitlines()` for the common line terminators. -/
def pySplitLines (s : List Char) : List (List Char) := splitLinesGo s []

/-- Helper for `collapseWs`: the boolean records whether the previous kept
character came from a whitespace run. -/
def collapseWsGo : Bool → List Char → List Char
  | _, [] => []
  | prev, c :: rest =>
    if pySpace c then
      (if prev then collapseWsGo true rest else ' ' :: collapseWsGo true rest)
    else c :: collapseWsGo false rest

/-- `re.sub(r"\s+", " ", s)`: replace each maximal whitespace run by one
space. -/
def collapseWs (s : List Char) : List Char := collapseWsGo false s

/-- `pat` is a prefix of `s` (used for `str.startswith` and substring
scanning). -/
def prefAt : List Char → List Char → Bool
  | [], _ => true
  | _ :: _, [] => false
  | p :: ps, c :: cs => p = c && prefAt ps cs

/-- Python's `pat in s` substring test. -/
def hasSub (s pat : List Char) : Bool :=
  (List.range (s.length + 1)).any (fun i => prefAt pat (s.drop i))

/-- The substring `s[a:b]`. -/
def strSlice (s : List Char) (a b : Nat) : List Char := (s.drop a).take (b - a)

/-- Value of a digit string (used for Python `int(...)` on matched
digit-only groups). -/
def digitsToNat (s : List Char) : Nat :=
  s.foldl (fun n c => 10 * n + (c.toNat - '0'.toNat)) 0

/-- Exact rational addition, implemented on the raw representation via
`mkRat` so that it evaluates by kernel reduction. -/
def qAdd (a b : ℚ) : ℚ := mkRat (a.num * (b.den : ℤ) + b.num * (a.den : ℤ)) (a.den * b.den)

/-- Exact rational subtraction (same style as `qAdd`). -/
def qSub (a b : ℚ) : ℚ := mkRat (a.num * (b.den : ℤ) - b.num * (a.den : ℤ)) (a.den * b.den)

/-- Exact multiplication by a natural number (same style as `qAdd`). -/
def qMulNat (a : ℚ) (n : Nat) : ℚ := mkRat (a.num * (n : ℤ)) a.den

/-- Decimal literal `digits[.digits]` as an exact rational. -/
def parseDec (s : List Char) : ℚ :=
  match s.span (fun c => c ≠ '.') with
  | (a, []) => mkRat (digitsToNat a) 1
  | (a, _ :: frac) =>
    mkRat (digitsToNat a * 10 ^ frac.length + digitsToNat frac) (10 ^ frac.length)

/-- The source's `to_float`: strip thousands separators, then convert.
Inputs always match the grouped-decimal grammar, so the decimal parser
is exact. -/
def pyToFloat (s : List Char) : ℚ := parseDec (s.filter (fun c => c ≠ ','))

/-- Round half to even to an integer (the rounding used by Python's
fixed-point float formatting).  The fractional part `r = q - ⌊q⌋` lies in
`[0, 1)`; it is compared with `1/2` on the raw representation
(`r < 1/2 ↔ 2 * r.num < r.den`, the denominator being positive). -/
def rhe (q : ℚ) : ℤ :=
  let f := q.floor
  let r := qSub q (mkRat f 1)
  if 2 * r.num < (r.den : ℤ) then f
  else if (r.den : ℤ) < 2 * r.num then f + 1
  else if f % 2 = 0 then f else f + 1

/-- Two-digit zero-padded rendering of `r < 100`. -/
def natPad2 (r : Nat) : List Char :=
  if r < 10 then '0' :: (Nat.repr r).data else (Nat.repr r).data

/-- Render `m` hundredths as `intpart.dd`. -/
def format2Nat (m : Nat) : List Char :=
  (Nat.repr (m / 100)).data ++ '.' :: natPad2 (m % 100)

/-- Python's `f"{x:.2f}"` on the exact rational model. -/
def format2 (q : ℚ) : List Char :=
  let n := rhe (qMulNat q 100)
  if n < 0 then '-' :: format2Nat n.natAbs else format2Nat n.natAbs

/-! ### A small backtracking regex engine (Python `re` priority order) -/

/-- Regular expressions: character classes, sequencing, prioritized
alternation, greedy/lazy star, capture groups, word boundary `\b` and the
end anchor `$`. -/
inductive RE where
  | eps : RE
  | cls : (Char → Bool) → RE
  | seq : RE → RE → RE
  | alt : RE → RE → RE
  | star : Bool → RE → RE
  | grp : Nat → RE → RE
  | bnd : RE
  | eos : RE

/-- Capture list: `(group index, start, stop)`, most recent first. -/
abbrev Caps : Type := List (Nat × Nat × Nat)

/-- Is position `i` of `s` occupied by a word character? -/
def wordAt (s : List Char) (i : Nat) : Bool :=
  match s[i]? with
  | some c => isWordChar c
  | none => false

/-- Python `\b`: word/non-word boundary at position `i` (string edges count
as non-word). -/
def boundaryAt (s : List Char) (i : Nat) : Bool :=
  (decide (i ≠ 0) && wordAt s (i - 1)) != wordAt s i

/-- Backtracking matcher in continuation-passing style.  The continuation
receives the next position and the captures; `Option` failure triggers
backtracking into earlier choice points, which reproduces Python's
leftmost / greedy / lazy priority order.  `fuel` only bounds recursion
depth and is chosen generously by callers. -/
def reRun (s : List Char) :
    Nat → RE → Nat → Caps → (Nat → Caps → Option (Nat × Caps)) → Option (Nat × Caps)
  | 0, _, _, _, _ => none
  | fuel + 1, r, i, caps, k =>
    match r with
    | .eps => k i caps
    | .cls p =>
      match s[i]? with
      | some c => if p c then k (i + 1) caps else none
      | none => none
    | .seq a b => reRun s fuel a i caps (fun j caps2 => reRun s fuel b j caps2 k)
    | .alt a b =>
      match reRun s fuel a i caps k with
      | some res => some res
      | none => reRun s fuel b i caps k
    | .star g a =>
      let stepThen :=
        reRun s fuel a i caps
          (fun j caps2 => if j = i then none else reRun s fuel (.star g a) j caps2 k)
      if g then
        match stepThen with
        | some res => some res
        | none => k i caps
      else
        match k i caps with
        | some res => some res
        | none => stepThen
    | .grp n a => reRun s fuel a i caps (fun j caps2 => k j ((n, i, j) :: caps2))
    | .bnd => if boundaryAt s i then k i caps else none
    | .eos => if i = s.length then k i caps else none

/-- Generous recursion-depth budget for `reRun` on input `s`. -/
def reFuel (s : List Char) : Nat := (s.length + 4) * 64

/-- Anchored match at position `i` (Python `pattern.match` when `i = 0`). -/
def reMatchAt (r : RE) (s : List Char) (i : Nat) : Option (Nat × Caps) :=
  reRun s (reFuel s) r i [] (fun j caps => some (j, caps))

/-- Python `re.search` restricted to start positions `≥ p`: the leftmost
start position wins, and at that position the engine's priority order
decides the rest.  Returns `(start, stop, captures)`. -/
def reSearchFrom (r : RE) (s : List Char) (p : Nat) : Option (Nat × Nat × Caps) :=
  (List.range' p (s.length + 1 - p)).findSome? (fun i =>
    match reMatchAt r s i with
    | some (j, caps) => some (i, j, caps)
    | none => none)

/-- Python `re.search`. -/
def reSearch (r : RE) (s : List Char) : Option (Nat × Nat × Caps) :=
  reSearchFrom r s 0

/-- Last recorded span of capture group `n` (Python `m.group(n)`). -/
def capGet (caps : Caps) (n : Nat) : Option (Nat × Nat) :=
  match caps with
  | [] => none
  | (m, a, b) :: rest => if m = n then some (a, b) else capGet rest n

/-- Text of capture group `n` of a match over `s`. -/
def grpStr (s : List Char) (caps : Caps) (n : Nat) : Option (List Char) :=
  (capGet caps n).map (fun ab => strSlice s ab.1 ab.2)

/-- Concatenation of a pattern list. -/
def RE.cat : List RE → RE
  | [] => .eps
  | [r] => r
  | r :: rs => .seq r (RE.cat rs)

/-- `r+` with the given greediness. -/
def RE.plus (g : Bool) (r : RE) : RE := .seq r (.star g r)

/-- `r?` (greedy). -/
def RE.opt (r : RE) : RE := .alt r .eps

/-- `r{n}`. -/
def RE.rep : Nat → RE → RE
  | 0, _ => .eps
  | n + 1, r => .seq r (RE.rep n r)

/-- `r{1,3}` (greedy: longest first). -/
def RE.rep13 (r : RE) : RE := .alt (RE.rep 3 r) (.alt (RE.rep 2 r) r)

/-- Case-sensitive literal. -/
def RE.lit (w : String) : RE := RE.cat (w.data.map (fun c => .cls (fun x => x = c)))

/-- Case-insensitive literal (the `re.IGNORECASE` searches). -/
def RE.litCI (w : String) : RE :=
  RE.cat (w.data.map (fun c => .cls (fun x => x.toUpper = c.toUpper)))

/-! ### Character classes used by the source's patterns -/

/-- `\s` as a pattern element. -/
def wsC : RE := .cls pySpace

/-- `\d`. -/
def digC : RE := .cls Char.isDigit

/-- `[A-Z]`. -/
def upAZ (c : Char) : Bool := 'A' ≤ c && c ≤ 'Z'

/-- `.` (any character but newline). -/
def anyNoNl : RE := .cls (fun c => c ≠ '\n')

/-- `[A-Z0-9\-]` under `re.IGNORECASE` (so lowercase letters match too). -/
def tokenCI (c : Char) : Bool := c.isAlpha || c.isDigit || c = '-'

/-! ### Document-number patterns (`parse_header`, tried with `re.IGNORECASE`) -/

/-- `CASH\s*SALE\s*No\.?\s*[:\-]?\s*([A-Z0-9\-]+)`. -/
def patCashSaleNo : RE :=
  RE.cat [RE.litCI ("CASH"), .star true wsC, RE.litCI ("SALE"), .star true wsC,
    RE.litCI ("No"), RE.opt (.cls (fun c => c = '.')), .star true wsC,
    RE.opt (.cls (fun c => c = ':' || c = '-')), .star true wsC,
    .grp 1 (RE.plus true (.cls tokenCI))]

/-- `INVOICE\s*NO\.?\s*[:\-]?\s*([A-Z0-9\-]+)`. -/
def patInvoiceNo : RE :=
  RE.cat [RE.litCI ("INVOICE"), .star true wsC, RE.litCI ("NO"),
    RE.opt (.cls (fun c => c = '.')), .star true wsC,
    RE.opt (.cls (fun c => c = ':' || c = '-')), .star true wsC,
    .grp 1 (RE.plus true (.cls tokenCI))]

/-- `\bSGM-\d{7}\b`. -/
def patSGM : RE := RE.cat [.bnd, RE.litCI ("SGM-"), RE.rep 7 digC, .bnd]

/-- `\bCS\d{6}\b`. -/
def patCS : RE := RE.cat [.bnd, RE.litCI ("CS"), RE.rep 6 digC, .bnd]

/-- The ordered pattern list of `parse_header`; the boolean records whether
the pattern has a capture group (`m.lastindex` truthy in the source). -/
def docPatterns : List (RE × Bool) :=
  [(patCashSaleNo, true), (patInvoiceNo, true), (patSGM, false), (patCS, false)]

/-- The source's first-match-wins loop over `docPatterns`: on a match, the
capture is used when the pattern has a group, else the whole match. -/
def docNumLoop (text : List Char) : List (RE × Bool) → List Char
  | [] => []
  | (p, hasGrp) :: rest =>
    match reSearch p text with
    | some (i, j, caps) =>
      if hasGrp then
        match capGet caps 1 with
        | some (a, b) => strSlice text a b
        | none => strSlice text i j
      else strSlice text i j
    | none => docNumLoop text rest

/-- Document number resolution of `parse_header`. -/
def find_doc_number (text : List Char) : List Char := docNumLoop text docPatterns

/-! ### Date pattern `\d{2}/\d{2}/\d{4}` (`parse_header`) -/

/-- Does `\d{2}/\d{2}/\d{4}` match at position `i`? -/
def dateAt (s : List Char) (i : Nat) : Bool :=
  match (s.drop i).take 10 with
  | [a, b, c, d, e, f, g, h, x, y] =>
    a.isDigit && b.isDigit && c = '/' && d.isDigit && e.isDigit && f = '/' &&
      g.isDigit && h.isDigit && x.isDigit && y.isDigit
  | _ => false

/-- First `DD/MM/YYYY` substring, or empty. -/
def find_date (s : List Char) : List Char :=
  match (List.range (s.length + 1)).findSome?
      (fun i => if dateAt s i then some ((s.drop i).take 10) else none) with
  | some d => d
  | none => []

/-! ### Supplier / document-type scanning (`parse_header`) -/

/-- Address accumulation: subsequent non-blank lines until a blank line or a
document-type marker, each stripped. -/
def collectAddr : List (List Char) → List (List Char)
  | [] => []
  | l :: rest =>
    if pyStrip l = [] then []
    else if hasSub (pyUpper l) (("CASH SALE").data) || hasSub (pyUpper l) (("INVOICE").data) then []
    else pyStrip l :: collectAddr rest

/-- First line containing `SDN BHD` (uppercased test) together with its
collected address lines. -/
def findSupplierLine : List (List Char) → Option (List Char × List (List Char))
  | [] => none
  | l :: rest =>
    if hasSub (pyUpper l) (("SDN BHD").data) then some (pyStrip l, collectAddr rest)
    else findSupplierLine rest

/-- First line containing a document-type marker, stripped. -/
def findDocType (lines : List (List Char)) : List Char :=
  match lines.find? (fun l =>
      hasSub (pyUpper l) (("CASH SALE").data) || hasSub (pyUpper l) (("CASH SALES").data) ||
        hasSub (pyUpper l) (("INVOICE").data)) with
  | some l => pyStrip l
  | none => []

/-- Output record of `parse_header` (all fields default to empty). -/
structure HeaderInfo where
  supplier_name : List Char
  supplier_address : List Char
  doc_type : List Char
  doc_number : List Char
  doc_date : List Char
deriving DecidableEq, Repr

/-- `parse_header`: four independent passes over the text. -/
def parse_header (text : List Char) : HeaderInfo :=
  let lines := pySplitLines text
  let sup := findSupplierLine lines
  { supplier_name := match sup with | some (n, _) => n | none => []
    supplier_address := match sup with | some (_, ls) => List.intercalate ([' ']) ls | none => []
    doc_type := findDocType lines
    doc_number := find_doc_number text
    doc_date := find_date text }

/-! ### Area resolver (`extract_area_from_address`)

The source searches the uppercased address with
`re.search(r'\b\d{5}\b\s+([A-Z\.\s]+)', addr_up)`.  The matcher below
follows that regex deterministically: leftmost start position; `\b`,
`\d{5}`, `\b`; then the greedy `\s+` with backtracking (try the longest
whitespace run first, give back one character at a time) against the
greedy `([A-Z\.\s]+)` group, whose class also contains whitespace. -/

/-- `[A-Z\.\s]` (the address tail class). -/
def areaTailClass (c : Char) : Bool := upAZ c || c = '.' || pySpace c

/-- Length of the maximal run of `p`-characters at the head of the list. -/
def runLenGo (p : Char → Bool) : List Char → Nat
  | [] => 0
  | c :: rest => if p c then runLenGo p rest + 1 else 0

/-- Backtracking of `\s+([A-Z\.\s]+)` after the postcode: `j` is the
position right after the postcode, the `Nat` argument the number of
whitespace characters currently given to `\s+` (initially the whole run).
If the greedy group finds at least one class character after them, the
group text is returned; otherwise `\s+` gives back one character. -/
def tryBack (s : List Char) (j : Nat) : Nat → Option (List Char)
  | 0 => none
  | k + 1 =>
    let c := runLenGo areaTailClass (s.drop (j + k + 1))
    if 0 < c then some ((s.drop (j + k + 1)).take c) else tryBack s j k

/-- `\d{5}` at position `i`. -/
def digitsRun5 (s : List Char) (i : Nat) : Bool :=
  match (s.drop i).take 5 with
  | [a, b, c, d, e] => a.isDigit && b.isDigit && c.isDigit && d.isDigit && e.isDigit
  | _ => false

/-- One attempt of `\b\d{5}\b\s+([A-Z\.\s]+)` anchored at position `i`,
returning the captured group on success. -/
def matchTailAt (s : List Char) (i : Nat) : Option (List Char) :=
  if boundaryAt s i && digitsRun5 s i && boundaryAt s (i + 5) then
    tryBack s (i + 5) (runLenGo pySpace (s.drop (i + 5)))
  else none

/-- `re.search` of the area pattern: leftmost matching start position. -/
def findAreaTail (s : List Char) : Option (List Char) :=
  (List.range (s.length + 1)).findSome? (matchTailAt s)

/-- Declarative reading of one match position, as the specification words
it: a run of exactly five digits bounded by word boundaries, followed by a
whitespace character and (the start of) a run of letters/periods/
whitespace. -/
def postcodeTailAt (s : List Char) (i : Nat) : Bool :=
  boundaryAt s i && digitsRun5 s i && boundaryAt s (i + 5) &&
    (match s.drop (i + 5) with
     | c1 :: c2 :: _ => pySpace c1 && areaTailClass c2
     | _ => false)

/-- The source's normalization of the captured tail: periods to spaces,
whitespace runs collapsed, then stripped. -/
def areaSegment (tail : List Char) : List Char :=
  pyStrip (collapseWs (tail.map (fun c => if c = '.' then ' ' else c)))

/-- The stop-word set of `extract_area_from_address`. -/
def stopWords : List (List Char) :=
  [("CASH").data, ("SALE").data, ("NO").data, ("PAGE").data, ("TEL").data,
    ("FAX").data, ("ITEMITEM").data, ("RM").data, ("RINGGIT").data, ("MALAYSIA").data]

/-- The source's final selection loop: walk the (already reversed) token
list and return the first token longer than two characters, title-cased. -/
def pickLoop : List (List Char) → Option (List Char)
  | [] => none
  | t :: ts => if 2 < t.length then some (pyTitle t) else pickLoop ts

/-- Candidate tokens of a captured tail: tokens of the normalized segment,
accumulated until the first stop word. -/
def areaCands (tail : List Char) : List (List Char) :=
  (pySplit (areaSegment tail)).takeWhile (fun t => decide (t ∉ stopWords))

/-- The specification's selection rule: scanning the candidate list from
the end, the first token of length `> 2`, title-cased; if every token has
length `≤ 2`, the last token title-cased. -/
def areaSelect (cands : List (List Char)) : List Char :=
  match cands.reverse.find? (fun t => decide (2 < t.length)) with
  | some t => pyTitle t
  | none => pyTitle (cands.getLastD [])

/-- `extract_area_from_address`. -/
def extract_area_from_address (address : List Char) : List Char :=
  if address = [] then []
  else
    match findAreaTail (pyUpper address) with
    | none => []
    | some tail =>
      let segment := areaSegment tail
      if segment = [] then []
      else
        let tokens := pySplit segment
        let areaTokens := tokens.takeWhile (fun t => decide (t ∉ stopWords))
        let areaTokens2 := if areaTokens = [] then tokens else areaTokens
        match pickLoop areaTokens2.reverse with
        | some r => r
        | none => pyTitle (areaTokens2.getLastD [])

/-! ### Line-item parser (`parse_items`) -/

/-- A parsed line item (numeric fields as exact rationals). -/
structure Item where
  line_no : Nat
  uom : List Char
  description : List Char
  qty : ℚ
  unit_price : ℚ
  line_total : ℚ
  item_code : List Char
  disc : List Char
deriving DecidableEq, Repr

/-- `\d{1,3}(?:,\d{3})*\.\d{2}` — the grouped two-decimal amount. -/
def groupedDec : RE :=
  RE.cat [RE.rep13 digC, .star true (RE.cat [.cls (fun c => c = ','), RE.rep 3 digC]),
    .cls (fun c => c = '.'), RE.rep 2 digC]

/-- The full item-line grammar of `parse_items` (case-sensitive):
`^\s*(\d+)\.\s+([A-Z0-9\-]+)\s+(.+?)\s+(\d+(?:\.\d+)?)\s+([A-Z]+)\s+`
`(\d{1,3}(?:,\d{3})*\.\d{2})(?:\s+(\d+%))?\s+(\d{1,3}(?:,\d{3})*\.\d{2})\s*$`
with groups 1 = line_no, 2 = code, 3 = desc (lazy), 4 = qty, 5 = uom,
6 = unit_price, 7 = disc (optional), 8 = amount. -/
def itemRE : RE :=
  RE.cat [.star true wsC, .grp 1 (RE.plus true digC), .cls (fun c => c = '.'),
    RE.plus true wsC, .grp 2 (RE.plus true (.cls (fun c => upAZ c || c.isDigit || c = '-'))),
    RE.plus true wsC, .grp 3 (RE.plus false anyNoNl), RE.plus true wsC,
    .grp 4 (RE.cat [RE.plus true digC,
      RE.opt (RE.cat [.cls (fun c => c = '.'), RE.plus true digC])]),
    RE.plus true wsC, .grp 5 (RE.plus true (.cls upAZ)), RE.plus true wsC,
    .grp 6 groupedDec,
    RE.opt (RE.cat [RE.plus true wsC,
      .grp 7 (RE.cat [RE.plus true digC, .cls (fun c => c = '%')])]),
    RE.plus true wsC, .grp 8 groupedDec, .star true wsC, .eos]

/-- Match one (stripped) line against the item grammar and build the item
record, exactly as the source's group-dictionary construction does. -/
def matchItemLine (line : List Char) : Option Item :=
  let s := pyStrip line
  match reMatchAt itemRE s 0 with
  | none => none
  | some (_, caps) =>
    some { line_no := digitsToNat ((grpStr s caps 1).getD [])
           uom := (grpStr s caps 5).getD []
           description := pyStrip ((grpStr s caps 3).getD [])
           qty := pyToFloat ((grpStr s caps 4).getD [])
           unit_price := pyToFloat ((grpStr s caps 6).getD [])
           line_total := pyToFloat ((grpStr s caps 8).getD [])
           item_code := (grpStr s caps 2).getD []
           disc := (grpStr s caps 7).getD [] }

/-- `parse_items`: each line independently either fully matches the grammar
(one item) or is skipped.  Total by construction — the "never raises"
part of the source's contract. -/
def parse_items (text : List Char) : List Item :=
  (pySplitLines text).filterMap matchItemLine

/-! ### Totals parser (`parse_totals`) -/

/-- Output record of `parse_totals`. -/
structure TotalsInfo where
  total_qty : Option ℚ
  grand_total : Option ℚ
  amount_in_words : List Char
deriving DecidableEq, Repr

/-- `Total\s+Qty\s+(\d{1,3}(?:,\d{3})*\.\d{2})` (searched with
`re.IGNORECASE`). -/
def patTotalQty : RE :=
  RE.cat [RE.litCI ("Total"), RE.plus true wsC, RE.litCI ("Qty"), RE.plus true wsC,
    .grp 1 groupedDec]

/-- `re.findall` of a group-free pattern: non-overlapping matches scanned
left to right, the whole match text each time. -/
def findAllFrom : Nat → Nat → List Char → RE → List (List Char)
  | 0, _, _, _ => []
  | fuel + 1, p, s, r =>
    match reSearchFrom r s p with
    | some (i, j, _) => strSlice s i j :: findAllFrom fuel (if i < j then j else j + 1) s r
    | none => []

/-- `parse_totals`: declared quantity total, the `RINGGIT MALAYSIA` words
line taken verbatim (stripped), and its last grouped-decimal number. -/
def parse_totals (text : List Char) : TotalsInfo :=
  let tq :=
    match reSearch patTotalQty text with
    | some (_, _, caps) =>
      match capGet caps 1 with
      | some (a, b) => some (pyToFloat (strSlice text a b))
      | none => none
    | none => none
  let aiw :=
    match (pySplitLines text).find? (fun l => hasSub (pyUpper l) (("RINGGIT MALAYSIA").data)) with
    | some l => pyStrip l
    | none => []
  let gt :=
    if aiw = [] then none
    else
      match (findAllFrom (aiw.length + 1) 0 aiw groupedDec).getLast? with
      | some numStr => some (pyToFloat numStr)
      | none => none
  { total_qty := tq, grand_total := gt, amount_in_words := aiw }

/-! ### Aggregator (`extract_receipt_to_object`, pure core)

Wall-clock fields (`processing_time`) and the acquisition step are not
modelled: the raw text is the input.  The remaining computation is embedded
field by field. -/

/-- The charge-item filter of the aggregator, verbatim from the source:
note the literal `" TOTAL"` carries a leading space while the description
has been stripped. -/
def charge_filter (it : Item) : Bool :=
  !hasSub (pyUpper it.description) (("RINGGIT MALAYSIA").data) &&
    !hasSub (pyUpper it.description) (("TOTAL QTY").data) &&
    !decide (pyStrip (pyUpper it.description) = (" TOTAL").data)

/-- The aggregator's charge-item list. -/
def charge_items (items : List Item) : List Item := items.filter charge_filter

/-- The aggregator's `Total RM` cascade: sum of charge items if any remain,
else the parsed grand total if present, else empty. -/
def total_rm (items : List Item) (grand : Option ℚ) : List Char :=
  match charge_items items with
  | [] =>
    (match grand with
     | some g => format2 g
     | none => [])
  | it :: rest => format2 ((it :: rest).foldl (fun a x => qAdd a x.line_total) (mkRat 0 1))

/-- `os.path.basename` (POSIX): the part after the last `/`. -/
def pyBasename (p : List Char) : List Char :=
  (p.reverse.takeWhile (fun c => c ≠ '/')).reverse

/-- Index of the last `.` of the name, if any. -/
def lastDotIdxGo : List Char → Nat → Option Nat → Option Nat
  | [], _, acc => acc
  | c :: rest, i, acc => lastDotIdxGo rest (i + 1) (if c = '.' then some i else acc)

/-- `os.path.splitext(name)[0]` for a plain file name: cut at the last dot
unless every character before it is a dot (leading-dot names keep their
dots). -/
def splitextRoot (b : List Char) : List Char :=
  match lastDotIdxGo b 0 none with
  | none => b
  | some d => if (b.take d).all (fun c => c = '.') then b else b.take d

/-- Filename-stem fallback used for the invoice number and for batch error
keys: `os.path.splitext(os.path.basename(path))[0] or "UNKNOWN"`. -/
def fileStem (path : List Char) : List Char :=
  let r := splitextRoot (pyBasename path)
  if r = [] then ("UNKNOWN").data else r

/-- `isInvoice` flag: document-type label contains `INVOICE`
(case-insensitive), or the invoice number starts with `CS`, `SGM` or `P`. -/
def is_invoice_flag (docType invNum : List Char) : Bool :=
  hasSub (pyUpper docType) (("INVOICE").data) ||
    prefAt (("CS").data) invNum || prefAt (("SGM").data) invNum ||
    prefAt (("P").data) invNum

/-- One rendered row of the aggregator's `table` (keys in the source:
`Product Description`, `Quantity`, `Unit Price`, `Amount`). -/
structure TableRow where
  product_description : List Char
  quantity : ℚ
  unit_price_s : List Char
  amount_s : List Char
deriving DecidableEq, Repr

/-- The `data` part of a single-file extraction result. -/
structure ExtractionData where
  invoice_number : List Char
  date_of_invoice : List Char
  total_rm : List Char
  dealer_name : List Char
  area : List Char
  table : List TableRow
  is_invoice : Bool
deriving DecidableEq, Repr

/-- The pure core of `extract_receipt_to_object`: header, items and totals
parsed independently, then combined. -/
def extract_core (raw_text file_path : List Char) : ExtractionData :=
  let header := parse_header raw_text
  let items := parse_items raw_text
  let totals := parse_totals raw_text
  let invoice_number := if header.doc_number = [] then fileStem file_path else header.doc_number
  { invoice_number := invoice_number
    date_of_invoice := header.doc_date
    total_rm := total_rm items totals.grand_total
    dealer_name := header.supplier_name
    area := extract_area_from_address header.supplier_address
    table := items.map (fun it =>
      { product_description := it.description, quantity := it.qty,
        unit_price_s := format2 it.unit_price, amount_s := format2 it.line_total })
    is_invoice := is_invoice_flag header.doc_type invoice_number }

/-! ### Batch wrapper (`extract_multiple_receipts_to_json`)

The per-document call `extract_receipt_to_object(file_path, ext)` can raise
(acquisition is I/O); it is therefore a parameter of type
`List Char × List Char → Except (List Char) BatchEntry`, an `Except.error`
standing for a raised exception with its message. -/

/-- The per-file entry stored in the batch `data` mapping (the nested
`data` payload is not repeated here). -/
structure BatchEntry where
  status : Bool
  message : List Char
  invoice_number : List Char
  is_invoice : Bool
  status_code : Nat
deriving DecidableEq, Repr

instance : Inhabited BatchEntry :=
  ⟨{ status := false, message := [], invoice_number := [], is_invoice := false, status_code := 0 }⟩

/-- The `status=false` placeholder recorded for a failed document. -/
def batchPlaceholder (e stem : List Char) : BatchEntry :=
  { status := false
    message := ("Error processing file: ").data ++ e
    invoice_number := stem
    is_invoice := false
    status_code := 500 }

/-- Python-dict insertion: an existing key keeps its position and gets the
new value; a new key is appended. -/
def dictInsert (k : List Char) (v : BatchEntry) :
    List (List Char × BatchEntry) → List (List Char × BatchEntry)
  | [] => [(k, v)]
  | (k2, v2) :: rest =>
    if k2 = k then (k2, v) :: rest else (k2, v2) :: dictInsert k v rest

/-- The batch loop: successes are keyed by invoice number (with the
`or "UNKNOWN"` guard) and counted; a raised exception is caught and
replaced by a placeholder keyed by the filename stem. -/
def batchGo (runOne : List Char × List Char → Except (List Char) BatchEntry) :
    List (List Char × List Char) → List (List Char × BatchEntry) → Nat →
      List (List Char × BatchEntry) × Nat
  | [], acc, n => (acc, n)
  | f :: rest, acc, n =>
    match runOne f with
    | .ok single =>
      let key := if single.invoice_number = [] then ("UNKNOWN").data else single.invoice_number
      batchGo runOne rest (dictInsert key single acc) (n + 1)
    | .error e => batchGo runOne rest (dictInsert (fileStem f.1) (batchPlaceholder e (fileStem f.1)) acc) n

/-- Top-level result of the batch wrapper. -/
structure BatchResult where
  status : Bool
  processed_count : Nat
  total_files : Nat
  results : List (List Char × BatchEntry)
deriving DecidableEq, Repr

/-- `extract_multiple_receipts_to_json` (the dict part; the JSON rendering
is presentation only).  `status` is `processed_count == total_files`. -/
def extract_multiple (runOne : List Char × List Char → Except (List Char) BatchEntry)
    (files : List (List Char × List Char)) : BatchResult :=
  let p := batchGo runOne files [] 0
  { status := decide (p.2 = files.length)
    processed_count := p.2
    total_files := files.length
    results := p.1 }

/-- Did the per-document call succeed? -/
def exOk {ε α : Type} : Except ε α → Bool
  | .ok _ => true
  | .error _ => false

/-! ### Helper lemmas -/

/-- `prefAt` tested via `take`. -/
theorem prefAt_iff_take (p : List Char) :
    ∀ s, prefAt p s = true ↔ s.take p.length = p := by
  induction p with
  | nil => intro s; simp [prefAt]
  | cons c cs ih =>
    intro s
    cases s with
    | nil => simp [prefAt]
    | cons d ds =>
      simp only [prefAt, List.length_cons, List.take_succ_cons, List.cons.injEq,
        Bool.and_eq_true, decide_eq_true_eq]
      constructor
      · rintro ⟨h1, h2⟩; exact ⟨h1.symm, (ih ds).mp h2⟩
      · rintro ⟨h1, h2⟩; exact ⟨h1.symm, (ih ds).mpr h2⟩

/-- `prefAt` as existence of a remainder (Python `startswith`). -/
theorem prefAt_iff_append (p : List Char) :
    ∀ s, prefAt p s = true ↔ ∃ r, s = p ++ r := by
  induction p with
  | nil => intro s; simp [prefAt]
  | cons c cs ih =>
    intro s
    cases s with
    | nil => simp [prefAt]
    | cons d ds =>
      simp only [prefAt, Bool.and_eq_true, decide_eq_true_eq, List.cons_append,
        List.cons.injEq]
      constructor
      · rintro ⟨h1, h2⟩
        obtain ⟨r, hr⟩ := (ih ds).mp h2
        exact ⟨r, h1.symm, hr⟩
      · rintro ⟨r, h1, h2⟩
        exact ⟨h1.symm, (ih ds).mpr ⟨r, h2⟩⟩

/-- Python's substring test, declaratively. -/
theorem hasSub_iff (s pat : List Char) :
    hasSub s pat = true ↔ ∃ i, (s.drop i).take pat.length = pat := by
  unfold hasSub
  rw [List.any_eq_true]
  constructor
  · rintro ⟨i, _, hp⟩
    exact ⟨i, (prefAt_iff_take pat _).mp hp⟩
  · rintro ⟨i, hi⟩
    by_cases h : i ≤ s.length
    · exact ⟨i, List.mem_range.mpr (Nat.lt_succ_of_le h), (prefAt_iff_take pat _).mpr hi⟩
    · push_neg at h
      have hd : s.drop i = [] := List.drop_eq_nil_of_le (Nat.le_of_lt h)
      rw [hd] at hi
      simp only [List.take_nil] at hi
      refine ⟨0, List.mem_range.mpr (Nat.succ_pos _), ?_⟩
      rw [← hi]
      simp [prefAt]

/-- The source's reversed-scan selection loop, as a `find?`. -/
theorem pickLoop_eq_find (l : List (List Char)) :
    pickLoop l = (l.find? (fun t => decide (2 < t.length))).map pyTitle := by
  induction l with
  | nil => rfl
  | cons t ts ih =>
    by_cases h : 2 < t.length
    · simp [pickLoop, List.find?_cons, h]
    · simp [pickLoop, List.find?_cons, h, ih]

/-- A positive run length exposes a head satisfying the predicate. -/
theorem runLenGo_pos (p : Char → Bool) (t : List Char) (h : 0 < runLenGo p t) :
    ∃ c t2, t = c :: t2 ∧ p c = true := by
  cases t with
  | nil => simp [runLenGo] at h
  | cons c t2 =>
    by_cases hc : p c = true
    · exact ⟨c, t2, rfl, hc⟩
    · simp [runLenGo, hc] at h

/-- A run length of at least two exposes two predicate-satisfying heads. -/
theorem runLenGo_two (p : Char → Bool) (t : List Char) (h : 2 ≤ runLenGo p t) :
    ∃ c1 c2 t3, t = c1 :: c2 :: t3 ∧ p c1 = true ∧ p c2 = true := by
  cases t with
  | nil => simp [runLenGo] at h
  | cons c1 t2 =>
    by_cases h1 : p c1 = true
    · cases t2 with
      | nil => simp [runLenGo, h1] at h
      | cons c2 t3 =>
        by_cases h2 : p c2 = true
        · exact ⟨c1, c2, t3, rfl, h1, h2⟩
        · simp [runLenGo, h1, h2] at h
    · simp [runLenGo, h1] at h

/-- Whitespace is inside the address-tail class. -/
theorem pySpace_tailClass (c : Char) (h : pySpace c = true) : areaTailClass c = true := by
  simp [areaTailClass, h]

/-- If the backtracking of `\s+([A-Z\.\s]+)` succeeds when at most the
whole whitespace run is given to `\s+`, then the text after the postcode
starts with a whitespace character followed by a class character. -/
theorem tryBack_some (s : List Char) (j : Nat) :
    ∀ k g, k ≤ runLenGo pySpace (s.drop j) → tryBack s j k = some g →
      ∃ c1 c2 t3, s.drop j = c1 :: c2 :: t3 ∧ pySpace c1 = true ∧ areaTailClass c2 = true := by
  intro k
  induction k with
  | zero => intro g _ hsome; simp [tryBack] at hsome
  | succ k ih =>
    intro g hle hsome
    unfold tryBack at hsome
    by_cases hc : 0 < runLenGo areaTailClass (s.drop (j + k + 1))
    · have h1 : 0 < runLenGo pySpace (s.drop j) :=
        Nat.lt_of_lt_of_le (Nat.succ_pos k) hle
      cases Nat.eq_zero_or_pos k with
      | inl hk0 =>
        subst hk0
        obtain ⟨c1, t2, hdrop, hws⟩ := runLenGo_pos _ _ h1
        have hdd : s.drop (j + 1) = t2 := by
          have h2 : (s.drop j).drop 1 = s.drop (j + 1) := by
            rw [List.drop_drop]
          rw [hdrop] at h2
          simpa using h2.symm
        rw [Nat.add_zero] at hc
        obtain ⟨c2, t3, hdrop2, hcls⟩ := runLenGo_pos _ _ hc
        rw [hdd] at hdrop2
        exact ⟨c1, c2, t3, by rw [hdrop, hdrop2], hws, hcls⟩
      | inr hkpos =>
        have h2 : 2 ≤ runLenGo pySpace (s.drop j) :=
          Nat.le_trans (Nat.succ_le_succ hkpos) hle
        obtain ⟨c1, c2, t3, hdrop, hws1, hws2⟩ := runLenGo_two _ _ h2
        exact ⟨c1, c2, t3, hdrop, hws1, pySpace_tailClass c2 hws2⟩
    · simp only [if_neg hc] at hsome
      exact ih g (Nat.le_of_succ_le hle) hsome

/-- A successful attempt of the area pattern at position `i` implies the
declarative postcode-tail condition there. -/
theorem matchTailAt_decl (s : List Char) (i : Nat) (g : List Char)
    (h : matchTailAt s i = some g) : postcodeTailAt s i = true := by
  unfold matchTailAt at h
  by_cases hb : (boundaryAt s i && digitsRun5 s i && boundaryAt s (i + 5)) = true
  · rw [if_pos hb] at h
    obtain ⟨c1, c2, t3, hdrop, hws, hcls⟩ :=
      tryBack_some s (i + 5) _ _ (Nat.le_refl _) h
    unfold postcodeTailAt
    rw [hdrop, hb]
    simp [hws, hcls]
  · rw [if_neg hb] at h
    exact absurd h (by simp)

/-- The head surviving `dropWhile` fails the predicate. -/
theorem dropWhile_head_false (p : Char → Bool) :
    ∀ (l : List Char) c t, l.dropWhile p = c :: t → p c = false := by
  intro l
  induction l with
  | nil => intro c t h; simp [List.dropWhile] at h
  | cons a l ih =>
    intro c t h
    by_cases ha : p a = true
    · rw [List.dropWhile_cons_of_pos ha] at h
      exact ih c t h
    · rw [List.dropWhile_cons_of_neg ha] at h
      cases h
      exact Bool.eq_false_iff.mpr ha

/-- `dropWhile` only removes a prefix. -/
theorem dropWhile_is_suffix (p : Char → Bool) :
    ∀ l : List Char, ∃ w, w ++ l.dropWhile p = l := by
  intro l
  induction l with
  | nil => exact ⟨[], rfl⟩
  | cons a l ih =>
    by_cases ha : p a = true
    · obtain ⟨w, hw⟩ := ih
      exact ⟨a :: w, by rw [List.dropWhile_cons_of_pos ha, List.cons_append, hw]⟩
    · exact ⟨[], by rw [List.dropWhile_cons_of_neg ha]; rfl⟩

/-- A stripped string never starts with whitespace. -/
theorem pyStrip_cons_not_space (d : List Char) (c : Char) (t : List Char)
    (h : pyStrip d = c :: t) : pySpace c = false := by
  unfold pyStrip at h
  obtain ⟨w, hw⟩ := dropWhile_is_suffix pySpace (d.dropWhile pySpace).reverse
  have hu2 : d.dropWhile pySpace = (c :: t) ++ w.reverse := by
    have h2 := congrArg List.reverse hw
    rw [List.reverse_append, List.reverse_reverse, h] at h2
    exact h2.symm
  exact dropWhile_head_false pySpace d c (t ++ w.reverse) (by rw [hu2]; rfl)

/-- No description ever equals the aggregator's literal `" TOTAL"`: its
leading space cannot survive the source's `.strip()`. -/
theorem stripped_ne_space_total (d : List Char) : pyStrip d ≠ (" TOTAL").data := by
  intro h
  have hsp : pySpace ' ' = false :=
    pyStrip_cons_not_space d ' ' (("TOTAL").data) (by rw [h])
  simp [pySpace] at hsp

/-- Processed count of the batch loop: the starting count plus the number
of successful per-document calls. -/
theorem batchGo_count (runOne : List Char × List Char → Except (List Char) BatchEntry) :
    ∀ files acc n, (batchGo runOne files acc n).2 = n + files.countP (fun f => exOk (runOne f)) := by
  intro files
  induction files with
  | nil => intro acc n; simp [batchGo, List.countP_nil]
  | cons f rest ih =>
    intro acc n
    unfold batchGo
    cases hro : runOne f with
    | ok single =>
      rw [ih]
      simp [List.countP_cons, exOk, hro]
      omega
    | error e =>
      rw [ih]
      simp [List.countP_cons, exOk, hro]

/-- Inserting a key makes it present. -/
theorem mem_keys_dictInsert_self (k : List Char) (v : BatchEntry) :
    ∀ l, k ∈ (dictInsert k v l).map Prod.fst := by
  intro l
  induction l with
  | nil => simp [dictInsert]
  | cons kv rest ih =>
    by_cases hk : kv.1 = k
    · simp [dictInsert, hk]
    · simp only [dictInsert, if_neg hk, List.map_cons, List.mem_cons]
      exact Or.inr ih

/-- Insertion preserves present keys. -/
theorem mem_keys_dictInsert_mono (k k2 : List Char) (v : BatchEntry) :
    ∀ l, k ∈ l.map Prod.fst → k ∈ (dictInsert k2 v l).map Prod.fst := by
  intro l
  induction l with
  | nil => intro h; simp at h
  | cons kv rest ih =>
    intro h
    by_cases hk : kv.1 = k2
    · simpa [dictInsert, hk] using h
    · simp only [List.map_cons, List.mem_cons] at h
      rcases h with h | h
      · simp [dictInsert, if_neg hk, h]
      · simp only [dictInsert, if_neg hk, List.map_cons, List.mem_cons]
        exact Or.inr (ih h)

/-- The batch loop never drops a key already present in the accumulator. -/
theorem batchGo_keys (runOne : List Char × List Char → Except (List Char) BatchEntry) :
    ∀ files acc n k, k ∈ acc.map Prod.fst →
      k ∈ ((batchGo runOne files acc n).1).map Prod.fst := by
  intro files
  induction files with
  | nil => intro acc n k h; simpa [batchGo] using h
  | cons f rest ih =>
    intro acc n k h
    unfold batchGo
    cases hro : runOne f with
    | ok single => exact ih _ _ k (mem_keys_dictInsert_mono k _ _ acc h)
    | error e => exact ih _ _ k (mem_keys_dictInsert_mono k _ _ acc h)

/-! ### Claim theorems -/

/-- Two-line text whose second item's description is exactly `TOTAL`. -/
def c1Text : List Char :=
  ("1. AAA FOO 1.00 BAG 440.00 440.00\n2. BBB TOTAL 1.00 BAG 6.00 6.00").data

/-- Claim C1: the claim (and the spec) say the charge-item list excludes
items whose description equals exactly "TOTAL".  The code's third filter
conjunct compares the stripped uppercased description against `" TOTAL"`
with a leading space, which can never hold, so the filter reduces to the
two substring tests and an item described exactly `TOTAL` is kept and
summed: on `c1Text` the total is `446.00` (the claim would give `440.00`). -/
theorem c1_exact_total_exclusion_dead :
    (∀ it : Item, charge_filter it =
      (!hasSub (pyUpper it.description) (("RINGGIT MALAYSIA").data) &&
        !hasSub (pyUpper it.description) (("TOTAL QTY").data)))
    ∧ (parse_items c1Text).map (fun it => it.description) = [("FOO").data, ("TOTAL").data]
    ∧ charge_items (parse_items c1Text) = parse_items c1Text
    ∧ total_rm (parse_items c1Text) none = ("446.00").data := by
  refine ⟨?_, by decide, by decide, by decide⟩
  intro it
  unfold charge_filter
  rw [decide_eq_false (stripped_ne_space_total (pyUpper it.description))]
  simp

/-- Claim C3: the two synthetic lines of the specification round-trip
through the item grammar with exactly the claimed field values
(`mkRat 1414 10` is `141.40`). -/
theorem c3_item_grammar_roundtrip :
    parse_items (("1. PCC-50KG 50KG CEMENT BAG 20.00 BAG 22.00 440.00").data) =
      [{ line_no := 1, uom := ("BAG").data, description := ("50KG CEMENT BAG").data,
         qty := mkRat 20 1, unit_price := mkRat 22 1, line_total := mkRat 440 1,
         item_code := ("PCC-50KG").data, disc := [] }]
    ∧ parse_items (("6. UP-3B 4IN PIPE CS 2.00 LGTH 101.00 30% 141.40").data) =
      [{ line_no := 6, uom := ("LGTH").data, description := ("4IN PIPE CS").data,
         qty := mkRat 2 1, unit_price := mkRat 101 1, line_total := mkRat 1414 10,
         item_code := ("UP-3B").data, disc := ("30%").data }] :=
  ⟨by decide, by decide⟩

/-- A text made only of a header line, a blank line and summary lines. -/
def c8Text : List Char :=
  ("INVOICE NO: ABC\n\nTotal Qty 77.00\nRINGGIT MALAYSIA ONLY 4,793.50").data

/-- Claim C8: `parse_items` is total (it is a Lean function, so it cannot
raise); each line contributes at most one item, every produced item comes
from a line that fully matches the grammar, a text with no matching lines
yields the empty list, and the concrete header/blank/summary text yields
no items. -/
theorem c8_parse_items_total :
    (∀ text, (parse_items text).length ≤ (pySplitLines text).length)
    ∧ (∀ text it, it ∈ parse_items text →
        ∃ l, l ∈ pySplitLines text ∧ matchItemLine l = some it)
    ∧ (∀ text, (∀ l ∈ pySplitLines text, matchItemLine l = none) → parse_items text = [])
    ∧ parse_items c8Text = [] := by
  refine ⟨?_, ?_, ?_, by decide⟩
  · intro text
    exact List.length_filterMap_le _ _
  · intro text it hit
    obtain ⟨l, hl, hm⟩ := List.mem_filterMap.mp hit
    exact ⟨l, hl, hm⟩
  · intro text h
    exact List.filterMap_eq_nil_iff.mpr h

/-- Witness for C8: the no-matching-line hypothesis holds on `c8Text`, and
the theorem's third conjunct then gives the empty item list. -/
theorem c8_witness :
    (∀ l ∈ pySplitLines c8Text, matchItemLine l = none) ∧ parse_items c8Text = [] :=
  ⟨by decide, c8_parse_items_total.2.2.1 c8Text (by decide)⟩

/-- Text whose single charge item sums to `100.00` while the words line
encodes `200.00`. -/
def c2Text : List Char :=
  ("1. AAA FOO 1.00 BAG 100.00 100.00\nRINGGIT MALAYSIA TWO HUNDRED ONLY 200.00").data

/-- Claim C2: the aggregator's total cascade — with at least one charge
item the formatted item sum is used whatever the parsed grand total says;
with no charge items a present grand total is formatted; otherwise the
total is empty.  On `c2Text` the item sum `100.00` wins over the words
line's `200.00`. -/
theorem c2_total_preference :
    (∀ items grand, charge_items items ≠ [] →
        total_rm items grand =
          format2 ((charge_items items).foldl (fun a x => qAdd a x.line_total) (mkRat 0 1)))
    ∧ (∀ items g, charge_items items = [] → total_rm items (some g) = format2 g)
    ∧ (∀ items, charge_items items = [] → total_rm items none = [])
    ∧ (extract_core c2Text (("r.pdf").data)).total_rm = ("100.00").data := by
  refine ⟨?_, ?_, ?_, by decide⟩
  · intro items grand hne
    unfold total_rm
    cases h : charge_items items with
    | nil => exact absurd h hne
    | cons it rest => rfl
  · intro items g h
    unfold total_rm
    rw [h]
  · intro items h
    unfold total_rm
    rw [h]

/-- Single charge item of value `100.00` for the C2 witness. -/
def c2Items : List Item :=
  [{ line_no := 1, uom := ("BAG").data, description := ("FOO").data, qty := mkRat 1 1,
     unit_price := mkRat 100 1, line_total := mkRat 100 1, item_code := ("AAA").data,
     disc := [] }]

/-- Witness for C2: the charge list of `c2Items` is non-empty and the item
sum wins over a differing grand total of `200.00`. -/
theorem c2_witness :
    charge_items c2Items ≠ [] ∧
      total_rm c2Items (some (mkRat 200 1)) =
        format2 ((charge_items c2Items).foldl (fun a x => qAdd a x.line_total) (mkRat 0 1)) :=
  ⟨by decide, c2_total_preference.1 c2Items (some (mkRat 200 1)) (by decide)⟩

/-- Claim C6: the document number is resolved by trying the four patterns
in their fixed order against the whole text, stopping at the first match;
labelled patterns contribute their capture, bare patterns the whole match,
and with no match the number is empty.  Concretely, a text matched by both
the CASH-SALE label and the bare SGM pattern yields the label's capture. -/
theorem c6_doc_number_cascade :
    (∀ text i j caps a b, reSearch patCashSaleNo text = some (i, j, caps) →
        capGet caps 1 = some (a, b) → find_doc_number text = strSlice text a b)
    ∧ (∀ text i j caps a b, reSearch patCashSaleNo text = none →
        reSearch patInvoiceNo text = some (i, j, caps) →
        capGet caps 1 = some (a, b) → find_doc_number text = strSlice text a b)
    ∧ (∀ text i j caps, reSearch patCashSaleNo text = none →
        reSearch patInvoiceNo text = none → reSearch patSGM text = some (i, j, caps) →
        find_doc_number text = strSlice text i j)
    ∧ (∀ text i j caps, reSearch patCashSaleNo text = none →
        reSearch patInvoiceNo text = none → reSearch patSGM text = none →
        reSearch patCS text = some (i, j, caps) → find_doc_number text = strSlice text i j)
    ∧ (∀ text, reSearch patCashSaleNo text = none → reSearch patInvoiceNo text = none →
        reSearch patSGM text = none → reSearch patCS text = none →
        find_doc_number text = [])
    ∧ find_doc_number (("CASH SALE No. : SGM-0001156").data) = ("SGM-0001156").data
    ∧ find_doc_number (("no number here").data) = [] := by
  refine ⟨?_, ?_, ?_, ?_, ?_, by decide, by decide⟩
  · intro text i j caps a b h1 hc
    simp [find_doc_number, docPatterns, docNumLoop, h1, hc]
  · intro text i j caps a b h1 h2 hc
    simp [find_doc_number, docPatterns, docNumLoop, h1, h2, hc]
  · intro text i j caps h1 h2 h3
    simp [find_doc_number, docPatterns, docNumLoop, h1, h2, h3]
  · intro text i j caps h1 h2 h3 h4
    simp [find_doc_number, docPatterns, docNumLoop, h1, h2, h3, h4]
  · intro text h1 h2 h3 h4
    simp [find_doc_number, docPatterns, docNumLoop, h1, h2, h3, h4]

/-- Witness for C6: on the concrete CASH-SALE text the first pattern
matches with capture span `[16, 27)` and the cascade returns it. -/
theorem c6_witness :
    find_doc_number (("CASH SALE No. : SGM-0001156").data) =
      strSlice (("CASH SALE No. : SGM-0001156").data) 16 27 :=
  c6_doc_number_cascade.1 (("CASH SALE No. : SGM-0001156").data) 0 27 [(1, 16, 27)] 16 27
    (by decide) (by decide)

/-- Case-insensitive containment through `upper`, declaratively. -/
theorem hasSub_upper_iff (l pat : List Char) :
    hasSub (pyUpper l) pat = true ↔
      ∃ i, ((l.drop i).take pat.length).map Char.toUpper = pat := by
  rw [hasSub_iff]
  unfold pyUpper
  constructor
  · rintro ⟨i, hi⟩
    rw [← List.map_drop, ← List.map_take] at hi
    exact ⟨i, hi⟩
  · rintro ⟨i, hi⟩
    rw [List.map_take, List.map_drop] at hi
    exact ⟨i, hi⟩

/-- Claim C7: `isInvoice` is true exactly when the detected document-type
label contains "INVOICE" case-insensitively or the resolved invoice number
(filename fallback included) starts with `CS`, `SGM` or `P`; in particular
any of those prefixes forces the flag whatever the label says. -/
theorem c7_is_invoice_iff : ∀ raw path,
    (extract_core raw path).is_invoice = true ↔
      ((∃ i, (((parse_header raw).doc_type.drop i).take 7).map Char.toUpper = ("INVOICE").data)
       ∨ (∃ r, (extract_core raw path).invoice_number = ("CS").data ++ r)
       ∨ (∃ r, (extract_core raw path).invoice_number = ("SGM").data ++ r)
       ∨ (∃ r, (extract_core raw path).invoice_number = ("P").data ++ r)) := by
  intro raw path
  have hflag : (extract_core raw path).is_invoice =
      is_invoice_flag (parse_header raw).doc_type (extract_core raw path).invoice_number := rfl
  rw [hflag]
  unfold is_invoice_flag
  simp only [Bool.or_eq_true, hasSub_upper_iff, prefAt_iff_append,
    show (("INVOICE").data.length) = 7 from rfl]
  tauto

/-- The specification's Bangi example address. -/
def bangiAddr : List Char := ("NO 5, JLN 12/1, SEKSYEN 12, 43650 B.B.BANGI").data

/-- Bridging lemma: under a successful postal-code search with non-empty
normalized segment, the resolver is the selection rule applied to the
token list after the stop-word accumulation and its empty-fallback. -/
theorem extract_area_eq_select (addr tail : List Char)
    (ha : addr ≠ []) (htail : findAreaTail (pyUpper addr) = some tail)
    (hseg : areaSegment tail ≠ []) :
    extract_area_from_address addr =
      areaSelect
        (if (pySplit (areaSegment tail)).takeWhile (fun t => decide (t ∉ stopWords)) = []
         then pySplit (areaSegment tail)
         else (pySplit (areaSegment tail)).takeWhile (fun t => decide (t ∉ stopWords))) := by
  simp only [extract_area_from_address, if_neg ha, htail, if_neg hseg, pickLoop_eq_find]
  unfold areaSelect
  cases hf : (if (pySplit (areaSegment tail)).takeWhile (fun t => decide (t ∉ stopWords)) = []
      then pySplit (areaSegment tail)
      else (pySplit (areaSegment tail)).takeWhile
        (fun t => decide (t ∉ stopWords))).reverse.find? (fun t => decide (2 < t.length)) with
  | some t => simp [hf]
  | none => simp [hf]

/-- Claim C4: whenever the postal-code search captures a tail whose
candidate token list (tokens up to the first stop word) is non-empty, the
resolver returns that list's last token of length `> 2` scanning from the
end, title-cased, or the last token when all are short; on the Bangi
address it returns `"Bangi"`. -/
theorem c4_area_selection :
    (∀ addr tail, findAreaTail (pyUpper addr) = some tail → areaCands tail ≠ [] →
        extract_area_from_address addr = areaSelect (areaCands tail))
    ∧ extract_area_from_address bangiAddr = ("Bangi").data := by
  refine ⟨?_, by decide⟩
  intro addr tail htail hcands
  have ha : addr ≠ [] := by
    intro h0
    rw [h0] at htail
    have hnil : findAreaTail (pyUpper ([] : List Char)) = none := by decide
    rw [hnil] at htail
    exact Option.noConfusion htail
  have hseg : areaSegment tail ≠ [] := by
    intro h0
    apply hcands
    unfold areaCands
    rw [h0]
    rfl
  unfold areaCands at hcands
  rw [extract_area_eq_select addr tail ha htail hseg, if_neg hcands]
  rfl

/-- Witness for C4: on the Bangi address the search captures `B.B.BANGI`,
its candidate list is non-empty, and the theorem yields the selection. -/
theorem c4_witness :
    findAreaTail (pyUpper bangiAddr) = some (("B.B.BANGI").data)
    ∧ areaCands (("B.B.BANGI").data) ≠ []
    ∧ extract_area_from_address bangiAddr = areaSelect (areaCands (("B.B.BANGI").data)) :=
  ⟨by decide, by decide,
    c4_area_selection.1 bangiAddr (("B.B.BANGI").data) (by decide) (by decide)⟩

/-- Claim C5: for an empty address, or one in which no position carries a
five-digit word-bounded token followed by whitespace and a
letters/periods/whitespace run, the resolver returns the empty string. -/
theorem c5_no_postcode_empty :
    ∀ addr,
      (addr = [] ∨ ∀ i, i < (pyUpper addr).length → postcodeTailAt (pyUpper addr) i = false) →
      extract_area_from_address addr = [] := by
  intro addr h
  by_cases ha : addr = []
  · rw [ha]
    rfl
  · rcases h with h | h
    · exact absurd h ha
    · have hnone : findAreaTail (pyUpper addr) = none := by
        unfold findAreaTail
        rw [List.findSome?_eq_none_iff]
        intro i _
        cases hmt : matchTailAt (pyUpper addr) i with
        | none => rfl
        | some g =>
          have hdecl := matchTailAt_decl _ _ _ hmt
          have hilt : i < (pyUpper addr).length := by
            by_contra hge
            push_neg at hge
            have hd : (pyUpper addr).drop i = [] := List.drop_eq_nil_of_le hge
            unfold postcodeTailAt digitsRun5 at hdecl
            rw [hd] at hdecl
            simp at hdecl
          rw [h i hilt] at hdecl
          exact absurd hdecl (by simp)
      unfold extract_area_from_address
      rw [if_neg ha, hnone]

/-- Address with no postcode token at all. -/
def c5Addr : List Char := ("JALAN MERDEKA KUALA LUMPUR").data

/-- Witness for C5: the no-postcode hypothesis holds on `c5Addr` and the
resolver returns empty there. -/
theorem c5_witness :
    (∀ i, i < (pyUpper c5Addr).length → postcodeTailAt (pyUpper c5Addr) i = false)
    ∧ extract_area_from_address c5Addr = [] :=
  ⟨by decide, c5_no_postcode_empty c5Addr (Or.inr (by decide))⟩

/-- Claim C10 (implicit): when the first token after the postcode is a
stop word — so the accumulated candidate list is empty — the whole token
list, stop words included, is reused and the usual selection applies, so
the area can itself be a title-cased stop word; a tail `CASH SALE` yields
`"Sale"`. -/
theorem c10_stopword_fallback :
    (∀ addr tail t0 ts, findAreaTail (pyUpper addr) = some tail →
        pySplit (areaSegment tail) = t0 :: ts → t0 ∈ stopWords →
        extract_area_from_address addr = areaSelect (t0 :: ts))
    ∧ extract_area_from_address (("X 43650 CASH SALE").data) = ("Sale").data := by
  refine ⟨?_, by decide⟩
  intro addr tail t0 ts htail htok hstop
  have ha : addr ≠ [] := by
    intro h0
    rw [h0] at htail
    have hnil : findAreaTail (pyUpper ([] : List Char)) = none := by decide
    rw [hnil] at htail
    exact Option.noConfusion htail
  have hseg : areaSegment tail ≠ [] := by
    intro h0
    rw [h0] at htok
    have he : pySplit ([] : List Char) = [] := rfl
    rw [he] at htok
    exact List.noConfusion htok
  have hwt : List.takeWhile (fun t => decide (t ∉ stopWords)) (t0 :: ts) = [] := by
    rw [List.takeWhile_cons]
    simp [hstop]
  rw [extract_area_eq_select addr tail ha htail hseg, htok, hwt, if_pos rfl]

/-- Address whose post-postcode tail starts with the stop words
`CASH SALE`. -/
def c10Addr : List Char := ("X 43650 CASH SALE").data

/-- Witness for C10: the stop-word-headed token list is reused and
selected from. -/
theorem c10_witness :
    extract_area_from_address c10Addr = areaSelect ((("CASH").data) :: [("SALE").data]) :=
  c10_stopword_fallback.1 c10Addr (("CASH SALE").data) (("CASH").data) [("SALE").data]
    (by decide) (by decide) (by decide)

/-- Concrete per-document runner: `good.pdf` succeeds, anything else
raises. -/
def runC : List Char × List Char → Except (List Char) BatchEntry := fun f =>
  if f.1 = ("good.pdf").data then
    Except.ok
      { status := true, message := ("File processed successfully").data,
        invoice_number := ("SGM-0001156").data, is_invoice := true, status_code := 200 }
  else Except.error (("boom").data)

/-- Two-document batch where the second document raises. -/
def c9Files : List (List Char × List Char) :=
  [(("good.pdf").data, ("pdf").data), (("bad.pdf").data, ("pdf").data)]

/-- Claim C9: the batch wrapper counts exactly the successful documents;
its status is true iff the processed count equals the number of inputs; a
document whose call raises contributes no count but leaves an entry keyed
by its filename stem while the rest is still processed; and the concrete
2-document batch with one failure has status false with exactly one
`status=false` placeholder, keyed `bad`. -/
theorem c9_batch_isolation :
    (∀ runOne files, (extract_multiple runOne files).processed_count =
        files.countP (fun f => exOk (runOne f)))
    ∧ (∀ runOne files, (extract_multiple runOne files).status = true ↔
        (extract_multiple runOne files).processed_count = files.length)
    ∧ (∀ runOne f e rest, runOne f = Except.error e →
        (extract_multiple runOne (f :: rest)).processed_count =
          (extract_multiple runOne rest).processed_count
        ∧ fileStem f.1 ∈ ((extract_multiple runOne (f :: rest)).results.map Prod.fst))
    ∧ ((extract_multiple runC c9Files).status = false
       ∧ (extract_multiple runC c9Files).processed_count = 1
       ∧ ((extract_multiple runC c9Files).results.filter
            (fun kv => !kv.2.status)).map Prod.fst = [("bad").data]) := by
  refine ⟨?_, ?_, ?_, by decide⟩
  · intro runOne files
    show (batchGo runOne files [] 0).2 = _
    rw [batchGo_count]
    simp
  · intro runOne files
    show decide ((batchGo runOne files [] 0).2 = files.length) = true ↔ _
    rw [decide_eq_true_iff]
    exact Iff.rfl
  · intro runOne f e rest hro
    constructor
    · show (batchGo runOne (f :: rest) [] 0).2 = (batchGo runOne rest [] 0).2
      rw [batchGo_count, batchGo_count]
      simp [List.countP_cons, exOk, hro]
    · show fileStem f.1 ∈ ((batchGo runOne (f :: rest) [] 0).1).map Prod.fst
      unfold batchGo
      rw [hro]
      exact batchGo_keys runOne rest _ 0 _ (mem_keys_dictInsert_self _ _ [])

/-- Witness for C9: the theorem's third conjunct applied to a one-document
batch whose single document raises. -/
theorem c9_witness :
    (extract_multiple runC [(("bad.pdf").data, ("pdf").data)]).processed_count =
      (extract_multiple runC []).processed_count
    ∧ fileStem (("bad.pdf").data) ∈
        ((extract_multiple runC [(("bad.pdf").data, ("pdf").data)]).results.map Prod.fst) :=
  c9_batch_isolation.2.2.1 runC (("bad.pdf").data, ("pdf").data) (("boom").data) []
    (by rfl)
